import Mathlib

/-!
Shallow embedding of the order-placement core of the E-store backend
(`src/routes/orders.js`, `src/routes/products.js`, and the MySQL schema):
the relational store is a record of table-row lists, monetary values are
rationals, and each route handler becomes a function from the store and the
request to a result paired with the store after the call.

Database calls made by the order-creation handler are numbered in program
order (0 = beginTransaction, 1 = the product SELECT, then the inserts and
stock updates, the commit, and the two post-commit read-back SELECTs); the
`failAt` argument of `placeOrder` injects a thrown error at the call with
that index, modelling a persistence failure.  An error thrown at or before
the commit is caught and the transaction rolls back, so the store is left
unchanged; an error thrown by a post-commit read-back is also caught, but
the rollback is a no-op because the transaction has already committed.
-/

namespace EStore

/-- A row of the `products` table (schema in the database setup script). -/
structure Product where
  id : String
  name : String
  price : ℚ
  stock : ℤ
  description : String
  image : Option String
  categoryId : Option String
deriving Repr, DecidableEq, Inhabited

/-- A row of the `orders` table.  `status` defaults to `"pending"` in the
schema; the order INSERT in the handler does not list the column. -/
structure OrderRow where
  id : String
  userId : String
  total : ℚ
  vatAmount : ℚ
  status : String
  paymentMethod : String
  shippingAddressId : Option String
  notes : Option String
deriving Repr, DecidableEq, Inhabited

/-- A row of the `order_items` table. -/
structure OrderItemRow where
  id : String
  orderId : String
  productId : String
  quantity : ℤ
  price : ℚ
deriving Repr, DecidableEq, Inhabited

/-- A row of the `addresses` table (the columns the order handler writes). -/
structure AddressRow where
  id : String
  userId : String
  street : String
  city : String
  district : String
  country : String
deriving Repr, DecidableEq, Inhabited

/-- The relational store: the tables touched by the order and product
routes. -/
structure Store where
  products : List Product
  orders : List OrderRow
  orderItems : List OrderItemRow
  addresses : List AddressRow
deriving Repr, DecidableEq, Inhabited

/-- One entry of the request's `items` array. -/
structure LineItem where
  productId : String
  quantity : ℤ
deriving Repr, DecidableEq, Inhabited

/-- The optional `shippingAddress` object of the request body. -/
structure AddressInput where
  street : String
  city : String
  district : String
  country : Option String
deriving Repr, DecidableEq, Inhabited

/-- The JSON body of `POST /api/orders`. -/
structure OrderRequest where
  items : List LineItem
  total : ℚ
  vatAmount : ℚ
  paymentMethod : String
  shippingAddress : Option AddressInput
  notes : Option String
deriving Repr, DecidableEq, Inhabited

/-- Hexadecimal digit test, as in the UUID regex of the validator library. -/
def isHexDigit (c : Char) : Bool :=
  c.isDigit || (Char.ofNat 97 ≤ c && c ≤ Char.ofNat 102) ||
    (Char.ofNat 65 ≤ c && c ≤ Char.ofNat 70)

/-- The `isUUID()` check of `express-validator`: 36 characters, hyphens at
positions 8, 13, 18 and 23, hexadecimal digits elsewhere. -/
def isUUID (s : String) : Bool :=
  let cs := s.toList
  cs.length == 36 &&
  (List.range 36).all (fun i =>
    if i = 8 ∨ i = 13 ∨ i = 18 ∨ i = 23 then cs.getD i ' ' == '-'
    else isHexDigit (cs.getD i ' '))

/-- The `paymentMethod` enum accepted by the route's validator chain. -/
def validPaymentMethod (m : String) : Bool :=
  m == "mobile_money" || m == "card" || m == "cash"

/-- The validator chain of `POST /api/orders`: `items` is a non-empty array,
each `productId` is a UUID, each `quantity` is an integer at least 1,
`total` and `vatAmount` are non-negative, and `paymentMethod` is one of the
three accepted values. -/
def validateOrder (req : OrderRequest) : Bool :=
  !req.items.isEmpty &&
  req.items.all (fun it => isUUID it.productId && decide (1 ≤ it.quantity)) &&
  decide ((0:ℚ) ≤ req.total) &&
  decide ((0:ℚ) ≤ req.vatAmount) &&
  validPaymentMethod req.paymentMethod

/-- Fixed VAT rate used by the handler (`calculatedTotal * 0.18`). -/
def VAT_RATE : ℚ := 18 / 100

/-- Tolerance of the total comparison (`Math.abs(...) > 0.01`). -/
def EPS : ℚ := 1 / 100

/-- The `productId`s of the request, in request order (`items.map(...)`). -/
def requestIds (req : OrderRequest) : List String :=
  req.items.map (fun it => it.productId)

/-- The batch lookup `SELECT id, name, price, stock FROM products WHERE id
IN (...)`: the table rows whose id occurs in the request. -/
def resolveProducts (st : Store) (req : OrderRequest) : List Product :=
  st.products.filter (fun p => (requestIds req).contains p.id)

/-- Outcome of the per-line stock-check/total-accumulation loop. -/
inductive StockCheck where
  | crash
  | insufficient (name : String)
  | ok (subtotal : ℚ)
deriving Repr, DecidableEq

/-- The loop over `items` that reads each product from the snapshot map,
rejects the first line whose quantity exceeds the snapshot stock, and
otherwise accumulates `price * quantity`.  A line whose product is missing
from the map makes the handler dereference `undefined` and throw, which the
surrounding catch turns into an internal error (`crash`). -/
def checkItems (resolved : List Product) : List LineItem → ℚ → StockCheck
  | [], acc => .ok acc
  | it :: rest, acc =>
    match resolved.find? (fun p => p.id == it.productId) with
    | none => .crash
    | some p =>
      if p.stock < it.quantity then .insufficient p.name
      else checkItems resolved rest (acc + p.price * (it.quantity : ℚ))

/-- The write loop's order-item inserts: one row per request entry, with the
unit price snapshotted from the batch lookup.  `k` is the index of the next
fresh uuid. -/
def writeLoop (resolved : List Product) (fresh : ℕ → String) (orderId : String) :
    List LineItem → ℕ → Option (List OrderItemRow)
  | [], _ => some []
  | it :: rest, k =>
    match resolved.find? (fun p => p.id == it.productId) with
    | none => none
    | some p =>
      (writeLoop resolved fresh orderId rest (k + 1)).map
        (fun rows =>
          { id := fresh k, orderId := orderId, productId := it.productId,
            quantity := it.quantity, price := p.price } :: rows)

/-- One `UPDATE products SET stock = stock - ? WHERE id = ?`. -/
def decOne (ps : List Product) (it : LineItem) : List Product :=
  ps.map (fun p =>
    if p.id == it.productId then { p with stock := p.stock - it.quantity } else p)

/-- The stock updates of the write loop, applied in request order. -/
def applyDecrements (ps : List Product) : List LineItem → List Product
  | [] => ps
  | it :: rest => applyDecrements (decOne ps it) rest

/-- Number of uuids consumed before the order id: 1 when a shipping address
is inserted, else 0. -/
def addrCount (req : OrderRequest) : ℕ :=
  if req.shippingAddress.isSome then 1 else 0

/-- Index of the `commit` call in the handler's sequence of database calls:
begin (0), product SELECT (1), the optional address INSERT, the order
INSERT, and two calls per line item come first. -/
def commitCallIdx (req : OrderRequest) : ℕ :=
  3 + addrCount req + 2 * req.items.length

/-- The address row inserted when the request carries a shipping address;
`country` falls back to `'Uganda'` when absent or empty (JS `||`). -/
def mkAddressRow (userId : String) (fresh : ℕ → String) (addr : AddressInput) :
    AddressRow :=
  { id := fresh 0, userId := userId, street := addr.street, city := addr.city,
    district := addr.district,
    country :=
      match addr.country with
      | some c => if c == "" then "Uganda" else c
      | none => "Uganda" }

/-- The order header row inserted by the handler: the INSERT passes the
client-claimed `total` and `vatAmount` and no `status`, so `status` takes
the schema default `"pending"`. -/
def mkOrderRow (userId : String) (req : OrderRequest) (fresh : ℕ → String) :
    OrderRow :=
  { id := fresh (addrCount req), userId := userId, total := req.total,
    vatAmount := req.vatAmount, status := "pending",
    paymentMethod := req.paymentMethod,
    shippingAddressId :=
      if req.shippingAddress.isSome then some (fresh 0) else none,
    notes := req.notes.map (fun n => n.trim) }

/-- The store as committed by a successful placement: the optional address
row, the order header, one order-item row per request entry, and the stock
decrements. -/
def commitStore (st : Store) (userId : String) (req : OrderRequest)
    (fresh : ℕ → String) (itemRows : List OrderItemRow) : Store :=
  { products := applyDecrements st.products req.items,
    orders := st.orders ++ [mkOrderRow userId req fresh],
    orderItems := st.orderItems ++ itemRows,
    addresses :=
      match req.shippingAddress with
      | some addr => st.addresses ++ [mkAddressRow userId fresh addr]
      | none => st.addresses }

/-- Result of `POST /api/orders`: HTTP 201 for `created`, 400 for the four
rejections, 500 for `internalError`. -/
inductive PlaceResult where
  | created (orderId : String)
  | validationFailed
  | productNotFound
  | insufficientStock (productName : String)
  | totalMismatch
  | internalError
deriving Repr, DecidableEq

/-- The human-readable error string the handler sends with each rejection. -/
def errorMessage : PlaceResult → Option String
  | .created _ => none
  | .validationFailed => some "Validation failed"
  | .productNotFound => some "Some products not found"
  | .insufficientStock nm => some ("Insufficient stock for " ++ nm)
  | .totalMismatch => some "Invalid total calculation"
  | .internalError => some "Internal server error"

/-- The `POST /api/orders` handler.  `fresh n` is the n-th uuid generated
during the call; `failAt` injects a thrown error at the database call with
that index (see the module comment).  Returns the HTTP-level result and the
store after the call. -/
def placeOrder (st : Store) (userId : String) (req : OrderRequest)
    (fresh : ℕ → String) (failAt : Option ℕ) : PlaceResult × Store :=
  if failAt = some 0 then (.internalError, st)
  else if !validateOrder req then (.validationFailed, st)
  else if failAt = some 1 then (.internalError, st)
  else if (resolveProducts st req).length ≠ req.items.length then
    (.productNotFound, st)
  else
    match checkItems (resolveProducts st req) req.items 0 with
    | .crash => (.internalError, st)
    | .insufficient nm => (.insufficientStock nm, st)
    | .ok sub =>
      if EPS < |sub + sub * VAT_RATE - req.total| ∨
         EPS < |sub * VAT_RATE - req.vatAmount| then
        (.totalMismatch, st)
      else
        match writeLoop (resolveProducts st req) fresh
            (fresh (addrCount req)) req.items (addrCount req + 1) with
        | none => (.internalError, st)
        | some itemRows =>
          match failAt with
          | some k =>
            if k ≤ commitCallIdx req then (.internalError, st)
            else if k = commitCallIdx req + 1 ∨ k = commitCallIdx req + 2 then
              (.internalError, commitStore st userId req fresh itemRows)
            else
              (.created (fresh (addrCount req)),
                commitStore st userId req fresh itemRows)
          | none =>
            (.created (fresh (addrCount req)),
              commitStore st userId req fresh itemRows)

/-- One call to the order-placement engine, for reasoning about sequences of
placements. -/
structure PlacementCall where
  userId : String
  req : OrderRequest
  fresh : ℕ → String
  failAt : Option ℕ

/-- Run a sequence of order placements, threading the store. -/
def runPlacements (st : Store) : List PlacementCall → Store
  | [] => st
  | c :: rest => runPlacements (placeOrder st c.userId c.req c.fresh c.failAt).2 rest

/-- The sparse patch body of `PUT /api/products/:id`: a field is applied
only when present in the request. -/
structure ProductPatch where
  name : Option String
  description : Option String
  price : Option ℚ
  image : Option String
  categoryId : Option String
  stock : Option ℤ
deriving Repr, DecidableEq, Inhabited

/-- The validator chain of `PUT /api/products/:id`: each field is optional;
when present, `name` and `description` must be non-empty after trimming,
`price` and `stock` non-negative, `categoryId` a UUID. -/
def validatePatch (patch : ProductPatch) : Bool :=
  (match patch.name with | some n => n.trim ≠ "" | none => true) &&
  (match patch.description with | some d => d.trim ≠ "" | none => true) &&
  (match patch.price with | some q => decide ((0:ℚ) ≤ q) | none => true) &&
  (match patch.categoryId with | some c => isUUID c | none => true) &&
  (match patch.stock with | some n => decide ((0:ℤ) ≤ n) | none => true)

/-- The `updateFields.length === 0` check: no optional field present. -/
def patchEmpty (patch : ProductPatch) : Bool :=
  patch.name.isNone && patch.description.isNone && patch.price.isNone &&
  patch.image.isNone && patch.categoryId.isNone && patch.stock.isNone

/-- Apply the present fields of the patch to one `products` row (the
dynamically built `UPDATE products SET ...`); `name` and `description` are
trimmed by the validator's sanitizers. -/
def applyPatch (p : Product) (patch : ProductPatch) : Product :=
  { p with
    name := (patch.name.map (fun n => n.trim)).getD p.name,
    description := (patch.description.map (fun d => d.trim)).getD p.description,
    price := patch.price.getD p.price,
    image := match patch.image with | some i => some i | none => p.image,
    categoryId := match patch.categoryId with | some c => some c | none => p.categoryId,
    stock := patch.stock.getD p.stock }

/-- Result of `PUT /api/products/:id`. -/
inductive UpdateResult where
  | updated
  | badRequest
  | notFound
  | noFields
deriving Repr, DecidableEq

/-- The `PUT /api/products/:id` handler: validate, check existence, reject
an empty patch, then issue a single `UPDATE products ... WHERE id = ?`.
Only the `products` table is written. -/
def updateProduct (st : Store) (productId : String) (patch : ProductPatch) :
    UpdateResult × Store :=
  if !validatePatch patch then (.badRequest, st)
  else if (st.products.filter (fun p => p.id == productId)).isEmpty then
    (.notFound, st)
  else if patchEmpty patch then (.noFields, st)
  else
    (.updated,
      { st with
        products := st.products.map (fun p =>
          if p.id == productId then applyPatch p patch else p) })

/-- The materialized view of one order item returned by the order routes:
the `order_items` row joined with the product's `name` and `image`. -/
def orderItemsView (st : Store) (orderId : String) :
    List (OrderItemRow × String × Option String) :=
  (st.orderItems.filter (fun oi => oi.orderId == orderId)).filterMap
    (fun oi =>
      (st.products.find? (fun p => p.id == oi.productId)).map
        (fun p => (oi, p.name, p.image)))

/-- Result of `GET /api/orders/:id`: both a non-existent order and an order
owned by someone else produce the same 404 `notFound` response. -/
inductive GetOrderResult where
  | notFound
  | found (order : OrderRow) (items : List (OrderItemRow × String × Option String))
deriving Repr, DecidableEq

/-- The `GET /api/orders/:id` handler: the SELECT's WHERE clause is
`o.id = ? AND (o.user_id = ? OR ? = 1)` with the caller's `is_admin` flag
as the third parameter. -/
def getOrderRoute (st : Store) (userId : String) (isAdmin : Bool)
    (orderId : String) : GetOrderResult :=
  match st.orders.find? (fun o => o.id == orderId && (o.userId == userId || isAdmin)) with
  | none => .notFound
  | some o => .found o (orderItemsView st o.id)

/-- A store with every row of id `orderId` removed from `orders`; used to
state that a denied lookup is indistinguishable from a missing order. -/
def eraseOrder (st : Store) (orderId : String) : Store :=
  { st with orders := st.orders.filter (fun o => ¬ o.id = orderId) }

/-- The price a line contributes per unit according to the catalog: the
current `price` of the first catalog row with the line's product id. -/
def linePrice (catalog : List Product) (it : LineItem) : ℚ :=
  match catalog.find? (fun p => p.id == it.productId) with
  | some p => p.price
  | none => 0

/-- The authoritative subtotal of the specification: the sum over the
request lines of the catalog unit price times the quantity. -/
def authSubtotal (catalog : List Product) (items : List LineItem) : ℚ :=
  (items.map (fun it => linePrice catalog it * (it.quantity : ℚ))).sum

/-- The authoritative VAT of the specification. -/
def authVat (catalog : List Product) (items : List LineItem) : ℚ :=
  authSubtotal catalog items * VAT_RATE

/-- The authoritative total of the specification. -/
def authTotal (catalog : List Product) (items : List LineItem) : ℚ :=
  authSubtotal catalog items + authVat catalog items

/-- Total quantity the request lines demand of one product id. -/
def itemsQty (items : List LineItem) (id : String) : ℤ :=
  ((items.filter (fun it => it.productId == id)).map (fun it => it.quantity)).sum

/-- A fixed uuid supply for concrete runs. -/
def demoFresh (n : ℕ) : String :=
  "00000000-0000-4000-8000-00000000000" ++ toString n

/-- A valid catalog product id. -/
def pid1 : String := "11111111-1111-1111-1111-111111111111"

/-- A second valid catalog product id. -/
def pid2 : String := "22222222-2222-2222-2222-222222222222"

/-- A one-product catalog: unit price 100, stock 10. -/
def demoStore : Store :=
  { products := [{ id := pid1, name := "Widget", price := 100, stock := 10,
                   description := "w", image := none, categoryId := none }],
    orders := [], orderItems := [], addresses := [] }

/-- A request for one unit of the demo product whose claimed figures are off
by 0.005, inside the 0.01 tolerance (authoritative total 118, VAT 18). -/
def demoReqSkewed : OrderRequest :=
  { items := [{ productId := pid1, quantity := 1 }],
    total := 118 + 1/200, vatAmount := 18 + 1/200,
    paymentMethod := "cash", shippingAddress := none, notes := none }

/-- A request for one unit of the demo product with exactly matching claimed
figures. -/
def demoReqExact : OrderRequest :=
  { items := [{ productId := pid1, quantity := 1 }],
    total := 118, vatAmount := 18,
    paymentMethod := "cash", shippingAddress := none, notes := none }

/-- The demo request with a tampered claimed total. -/
def demoReqTampered : OrderRequest :=
  { items := [{ productId := pid1, quantity := 1 }],
    total := 999999, vatAmount := 18,
    paymentMethod := "cash", shippingAddress := none, notes := none }

/-- A request naming the demo product twice, one unit each, with claimed
figures matching the two-unit authoritative total. -/
def demoReqDup : OrderRequest :=
  { items := [{ productId := pid1, quantity := 1 }, { productId := pid1, quantity := 1 }],
    total := 236, vatAmount := 36,
    paymentMethod := "cash", shippingAddress := none, notes := none }

/-- A request for more units than the demo product has in stock. -/
def demoReqTooMany : OrderRequest :=
  { items := [{ productId := pid1, quantity := 11 }],
    total := 118 * 11, vatAmount := 18 * 11,
    paymentMethod := "cash", shippingAddress := none, notes := none }

/-- A request that fails validation: empty items array. -/
def demoReqInvalid : OrderRequest :=
  { items := [], total := 0, vatAmount := 0,
    paymentMethod := "cash", shippingAddress := none, notes := none }

/-- A store with one order owned by user `"alice"`. -/
def demoOrderStore : Store :=
  { products := [], orderItems := [], addresses := [],
    orders := [{ id := "o1", userId := "alice", total := 118, vatAmount := 18,
                 status := "pending", paymentMethod := "cash",
                 shippingAddressId := none, notes := none }] }

end EStore

namespace EStore

/-! ### General lemmas about the order-placement workflow -/

/-- Searching a filtered list equals searching the original list when the
search predicate implies the filter predicate. -/
theorem find?_filter_of_imp (l : List Product) (q pr : Product → Bool)
    (h : ∀ x, q x = true → pr x = true) :
    (l.filter pr).find? q = l.find? q := by
  induction l with
  | nil => rfl
  | cons a t ih =>
    by_cases hq : q a
    · have hpr := h a hq
      simp [List.filter_cons, hpr, List.find?_cons_of_pos, hq]
    · by_cases hpr : pr a
      · simp [List.filter_cons, hpr, List.find?_cons_of_neg, hq, ih]
      · simp [List.filter_cons, hpr, List.find?_cons_of_neg, hq, ih]

/-- For a line of the request, looking its product up in the batch-lookup
result is the same as looking it up in the whole catalog. -/
theorem find?_resolve_eq (st : Store) (req : OrderRequest) (it : LineItem)
    (hit : it ∈ req.items) :
    (resolveProducts st req).find? (fun p => p.id == it.productId) =
      st.products.find? (fun p => p.id == it.productId) := by
  apply find?_filter_of_imp
  intro x hx
  have hx' : x.id = it.productId := by simpa using hx
  have : it.productId ∈ requestIds req := by
    simp only [requestIds, List.mem_map]
    exact ⟨it, hit, rfl⟩
  simpa [hx'] using this

/-- If the stock-check loop succeeds, its result is the accumulator plus the
sum of snapshot price times quantity over the lines. -/
theorem checkItems_ok_subtotal (resolved : List Product) :
    ∀ (items : List LineItem) (acc s : ℚ),
      checkItems resolved items acc = .ok s →
      s = acc + (items.map (fun it => linePrice resolved it * (it.quantity : ℚ))).sum := by
  intro items
  induction items with
  | nil => intro acc s h; simpa [checkItems] using h.symm
  | cons it rest ih =>
    intro acc s h
    simp only [checkItems] at h
    cases hf : resolved.find? (fun p => p.id == it.productId) with
    | none => simp only [hf] at h; cases h
    | some p =>
      simp only [hf] at h
      by_cases hs : p.stock < it.quantity
      · rw [if_pos hs] at h; cases h
      · rw [if_neg hs] at h
        have := ih (acc + p.price * (it.quantity : ℚ)) s h
        simp only [linePrice, hf, List.map_cons, List.sum_cons] at this ⊢
        rw [this]; ring

/-- If the stock-check loop succeeds, every line resolves to a product of
the snapshot whose stock covers the line's quantity. -/
theorem checkItems_ok_bound (resolved : List Product) :
    ∀ (items : List LineItem) (acc s : ℚ),
      checkItems resolved items acc = .ok s →
      ∀ it ∈ items, ∃ p, resolved.find? (fun x => x.id == it.productId) = some p ∧
        it.quantity ≤ p.stock := by
  intro items
  induction items with
  | nil => intro acc s _ it hit; cases hit
  | cons hd rest ih =>
    intro acc s h it hit
    simp only [checkItems] at h
    cases hf : resolved.find? (fun p => p.id == hd.productId) with
    | none => simp only [hf] at h; cases h
    | some p =>
      simp only [hf] at h
      by_cases hs : p.stock < hd.quantity
      · rw [if_pos hs] at h; cases h
      · rw [if_neg hs] at h
        rcases List.mem_cons.mp hit with rfl | hmem
        · exact ⟨p, hf, le_of_not_lt hs⟩
        · exact ih _ s h it hmem

/-- If every line resolves and some line's quantity exceeds its snapshot
stock, the stock-check loop rejects with the name of an offending product
(the first offender in request order). -/
theorem checkItems_insufficient_of_offender (resolved : List Product) :
    ∀ (items : List LineItem) (acc : ℚ),
      (∀ it ∈ items, (resolved.find? (fun x => x.id == it.productId)).isSome) →
      (∃ it ∈ items, ∃ p, resolved.find? (fun x => x.id == it.productId) = some p ∧
        p.stock < it.quantity) →
      ∃ it ∈ items, ∃ p, resolved.find? (fun x => x.id == it.productId) = some p ∧
        p.stock < it.quantity ∧
        checkItems resolved items acc = .insufficient p.name := by
  intro items
  induction items with
  | nil => intro acc _ hoff; rcases hoff with ⟨it, hit, _⟩; cases hit
  | cons hd rest ih =>
    intro acc hall hoff
    rcases Option.isSome_iff_exists.mp (hall hd (List.mem_cons_self hd rest)) with ⟨p, hp⟩
    by_cases hs : p.stock < hd.quantity
    · refine ⟨hd, List.mem_cons_self hd rest, p, hp, hs, ?_⟩
      simp only [checkItems, hp, if_pos hs]
    · have hrest : ∃ it ∈ rest, ∃ q,
          resolved.find? (fun x => x.id == it.productId) = some q ∧ q.stock < it.quantity := by
        rcases hoff with ⟨it, hit, q, hq, hlt⟩
        rcases List.mem_cons.mp hit with rfl | hmem
        · rw [hp] at hq; cases hq; exact absurd hlt hs
        · exact ⟨it, hmem, q, hq, hlt⟩
      rcases ih (acc + p.price * (hd.quantity : ℚ))
          (fun it hit => hall it (List.mem_cons_of_mem hd hit)) hrest with
        ⟨it, hit, q, hq, hlt, heq⟩
      refine ⟨it, List.mem_cons_of_mem hd hit, q, hq, hlt, ?_⟩
      simp only [checkItems, hp, if_neg hs, heq]

/-- The write loop succeeds whenever every line resolves in the snapshot. -/
theorem writeLoop_isSome (resolved : List Product) (fresh : ℕ → String)
    (oid : String) :
    ∀ (items : List LineItem) (k : ℕ),
      (∀ it ∈ items, (resolved.find? (fun p => p.id == it.productId)).isSome) →
      ∃ rows, writeLoop resolved fresh oid items k = some rows := by
  intro items
  induction items with
  | nil => intro k _; exact ⟨[], rfl⟩
  | cons hd rest ih =>
    intro k hall
    rcases Option.isSome_iff_exists.mp (hall hd (List.mem_cons_self hd rest)) with ⟨p, hp⟩
    rcases ih (k + 1) (fun it hit => hall it (List.mem_cons_of_mem hd hit)) with ⟨rows, hrows⟩
    exact ⟨{ id := fresh k, orderId := oid, productId := hd.productId,
             quantity := hd.quantity, price := p.price } :: rows,
           by simp [writeLoop, hp, hrows]⟩

/-- The ids of the batch-lookup result are distinct (the table's primary
key), and each belongs to the request. -/
theorem resolve_ids_nodup (st : Store) (req : OrderRequest)
    (hN : (st.products.map Product.id).Nodup) :
    ((resolveProducts st req).map Product.id).Nodup := by
  exact hN.sublist (List.Sublist.map Product.id (List.filter_sublist st.products))

/-- Every id of the batch-lookup result occurs among the requested ids. -/
theorem resolve_ids_subset (st : Store) (req : OrderRequest) :
    ∀ x ∈ (resolveProducts st req).map Product.id, x ∈ requestIds req := by
  intro x hx
  rcases List.mem_map.mp hx with ⟨p, hp, rfl⟩
  have := List.mem_filter.mp hp
  simpa using this.2

/-- When the handler's `products.length !== items.length` check passes on a
catalog with distinct ids, the requested ids are distinct and each of them
resolves to a catalog row. -/
theorem resolve_full (st : Store) (req : OrderRequest)
    (hN : (st.products.map Product.id).Nodup)
    (hres : (resolveProducts st req).length = req.items.length) :
    (requestIds req).Nodup ∧
      ∀ it ∈ req.items, ∃ p ∈ resolveProducts st req, p.id = it.productId := by
  classical
  set R : List String := (resolveProducts st req).map Product.id with hR
  have hRnodup : R.Nodup := resolve_ids_nodup st req hN
  have hRsub : ∀ x ∈ R, x ∈ requestIds req := resolve_ids_subset st req
  have hRlen : R.length = (requestIds req).length := by
    simp only [hR, List.length_map, requestIds, hres]
  have hsubF : R.toFinset ⊆ (requestIds req).toFinset := by
    intro x hx
    exact List.mem_toFinset.mpr (hRsub x (List.mem_toFinset.mp hx))
  have hcardR : R.toFinset.card = R.length := List.toFinset_card_of_nodup hRnodup
  have hcard_le : (requestIds req).toFinset.card ≤ (requestIds req).length :=
    List.toFinset_card_le (requestIds req)
  have hcard_ge : (requestIds req).length ≤ (requestIds req).toFinset.card := by
    calc (requestIds req).length = R.length := hRlen.symm
      _ = R.toFinset.card := hcardR.symm
      _ ≤ (requestIds req).toFinset.card := Finset.card_le_card hsubF
  have hcard_eq : (requestIds req).toFinset.card = (requestIds req).length :=
    le_antisymm hcard_le hcard_ge
  have hnodup : (requestIds req).Nodup := by
    have hd : (requestIds req).dedup.length = (requestIds req).length := by
      rw [← List.card_toFinset]; exact hcard_eq
    have : (requestIds req).dedup = requestIds req :=
      (List.dedup_sublist (requestIds req)).eq_of_length hd
    rw [← this]; exact List.nodup_dedup _
  have hFeq : (requestIds req).toFinset = R.toFinset := by
    apply (Finset.eq_of_subset_of_card_le hsubF ?_).symm
    rw [hcard_eq, ← hRlen, ← hcardR]
  refine ⟨hnodup, ?_⟩
  intro it hit
  have hmem : it.productId ∈ requestIds req := by
    simp only [requestIds, List.mem_map]; exact ⟨it, hit, rfl⟩
  have : it.productId ∈ R := by
    have := hFeq ▸ List.mem_toFinset.mpr hmem
    exact List.mem_toFinset.mp this
  rcases List.mem_map.mp this with ⟨p, hp, hpid⟩
  exact ⟨p, hp, hpid⟩

/-- When resolution passes, every line's snapshot lookup succeeds. -/
theorem resolve_find_isSome (st : Store) (req : OrderRequest)
    (hN : (st.products.map Product.id).Nodup)
    (hres : (resolveProducts st req).length = req.items.length) :
    ∀ it ∈ req.items,
      ((resolveProducts st req).find? (fun p => p.id == it.productId)).isSome := by
  intro it hit
  rcases (resolve_full st req hN hres).2 it hit with ⟨p, hp, hpid⟩
  exact List.find?_isSome.mpr ⟨p, hp, by simp [hpid]⟩

/-- Rows of a catalog with distinct ids are determined by their id. -/
theorem catalog_id_injective (ps : List Product)
    (hN : (ps.map Product.id).Nodup) :
    ∀ p ∈ ps, ∀ q ∈ ps, p.id = q.id → p = q := by
  intro p hp q hq h
  exact List.inj_on_of_nodup_map hN hp hq h

/-- In a duplicate-free request, the only line carrying a given line's
product id is that line itself. -/
theorem filter_pid_single (items : List LineItem)
    (hN : (items.map (fun it => it.productId)).Nodup) :
    ∀ it ∈ items, items.filter (fun x => x.productId == it.productId) = [it] := by
  induction items with
  | nil => intro it hit; cases hit
  | cons hd rest ih =>
    intro it hit
    have hhd : (hd.productId ∉ rest.map (fun it => it.productId)) ∧
        (rest.map (fun it => it.productId)).Nodup := by
      simpa [List.nodup_cons] using hN
    rcases List.mem_cons.mp hit with rfl | hmem
    · have : rest.filter (fun x => x.productId == it.productId) = [] := by
        rw [List.filter_eq_nil_iff]
        intro a ha hcontra
        exact hhd.1 (List.mem_map.mpr ⟨a, ha, by simpa using hcontra⟩)
      simp [List.filter_cons, this]
    · have hne : ¬ ((hd.productId == it.productId) = true) := by
        intro hcontra
        have heq : hd.productId = it.productId := by simpa using hcontra
        exact hhd.1 (List.mem_map.mpr ⟨it, hmem, heq.symm⟩)
      rw [List.filter_cons, if_neg hne]
      exact ih hhd.2 it hmem

/-- The stock updates of the write loop amount to subtracting, from every
catalog row, the total quantity the request demands of its id. -/
theorem applyDecrements_eq_map :
    ∀ (items : List LineItem) (ps : List Product),
      applyDecrements ps items =
        ps.map (fun p => { p with stock := p.stock - itemsQty items p.id }) := by
  intro items
  induction items with
  | nil =>
    intro ps
    simp only [applyDecrements, itemsQty, List.filter_nil, List.map_nil,
      List.sum_nil, sub_zero]
    exact (List.map_id ps).symm
  | cons it rest ih =>
    intro ps
    simp only [applyDecrements, decOne, ih, List.map_map]
    apply List.map_congr_left
    intro p _
    simp only [Function.comp_apply]
    by_cases h : p.id = it.productId
    · have hb : (p.id == it.productId) = true := by simpa using h
      have hb' : (it.productId == p.id) = true := by simpa using h.symm
      simp only [hb, if_pos, itemsQty, List.filter_cons, hb', if_pos,
        List.map_cons, List.sum_cons]
      simp [sub_sub]
    · have hb : ¬ (p.id == it.productId) = true := by simpa using h
      have hb' : ¬ (it.productId == p.id) = true := by
        simpa using fun hcontra => h hcontra.symm
      simp only [if_neg hb, itemsQty, List.filter_cons]
      rw [if_neg hb']

/-- The stock updates do not change the list of catalog ids. -/
theorem applyDecrements_ids (items : List LineItem) (ps : List Product) :
    (applyDecrements ps items).map Product.id = ps.map Product.id := by
  rw [applyDecrements_eq_map, List.map_map]
  rfl

/-- Core stock-safety fact: on a catalog with distinct non-negative stocks,
a placement that passed resolution and the stock check commits only
non-negative stocks. -/
theorem commit_stock_nonneg (st : Store) (req : OrderRequest) (s : ℚ)
    (hN : (st.products.map Product.id).Nodup)
    (h0 : ∀ p ∈ st.products, 0 ≤ p.stock)
    (hres : (resolveProducts st req).length = req.items.length)
    (hchk : checkItems (resolveProducts st req) req.items 0 = .ok s) :
    ∀ p ∈ applyDecrements st.products req.items, 0 ≤ p.stock := by
  rw [applyDecrements_eq_map]
  intro p' hp'
  rcases List.mem_map.mp hp' with ⟨p, hp, rfl⟩
  simp only
  rcases resolve_full st req hN hres with ⟨hids, _⟩
  by_cases hex : ∃ it ∈ req.items, it.productId = p.id
  · rcases hex with ⟨it, hit, hid⟩
    have hfilter : req.items.filter (fun x => x.productId == p.id) = [it] := by
      rw [← hid]
      exact filter_pid_single req.items hids it hit
    have hq : itemsQty req.items p.id = it.quantity := by
      simp [itemsQty, hfilter]
    rcases checkItems_ok_bound (resolveProducts st req) req.items 0 s hchk it hit with
      ⟨q, hqfind, hqle⟩
    have hqmem : q ∈ resolveProducts st req := List.mem_of_find?_eq_some hqfind
    have hqid : q.id = it.productId := by simpa using List.find?_some hqfind
    have hqcat : q ∈ st.products := List.mem_of_mem_filter hqmem
    have : q = p := catalog_id_injective st.products hN q hqcat p hp (by rw [hqid, hid])
    rw [hq, sub_nonneg]
    rw [← this]
    exact hqle
  · have hfilter : req.items.filter (fun x => x.productId == p.id) = [] := by
      rw [List.filter_eq_nil_iff]
      intro a ha hcontra
      exact hex ⟨a, ha, by simpa using hcontra⟩
    have hq : itemsQty req.items p.id = 0 := by simp [itemsQty, hfilter]
    rw [hq, sub_zero]
    exact h0 p hp


/-- Characterization of the success path of the handler: all checks pass,
no injected failure, and the call returns 201 with the committed store. -/
theorem placeOrder_success_eq (st : Store) (u : String) (req : OrderRequest)
    (fresh : ℕ → String) (s : ℚ) (rows : List OrderItemRow)
    (hv : validateOrder req = true)
    (hres : (resolveProducts st req).length = req.items.length)
    (hchk : checkItems (resolveProducts st req) req.items 0 = .ok s)
    (htol : ¬ (EPS < |s + s * VAT_RATE - req.total| ∨
               EPS < |s * VAT_RATE - req.vatAmount|))
    (hw : writeLoop (resolveProducts st req) fresh (fresh (addrCount req))
      req.items (addrCount req + 1) = some rows) :
    placeOrder st u req fresh none =
      (.created (fresh (addrCount req)), commitStore st u req fresh rows) := by
  simp [placeOrder, hv, hres, hchk, htol, hw]

/-- Characterization of the validation-failure path. -/
theorem placeOrder_invalid_eq (st : Store) (u : String) (req : OrderRequest)
    (fresh : ℕ → String) (hv : validateOrder req = false) :
    placeOrder st u req fresh none = (.validationFailed, st) := by
  simp [placeOrder, hv]

/-- Characterization of the product-resolution-failure path. -/
theorem placeOrder_notFound_eq (st : Store) (u : String) (req : OrderRequest)
    (fresh : ℕ → String) (hv : validateOrder req = true)
    (hres : (resolveProducts st req).length ≠ req.items.length) :
    placeOrder st u req fresh none = (.productNotFound, st) := by
  simp [placeOrder, hv, hres]

/-- Characterization of the insufficient-stock path. -/
theorem placeOrder_insufficient_eq (st : Store) (u : String) (req : OrderRequest)
    (fresh : ℕ → String) (nm : String) (hv : validateOrder req = true)
    (hres : (resolveProducts st req).length = req.items.length)
    (hchk : checkItems (resolveProducts st req) req.items 0 = .insufficient nm) :
    placeOrder st u req fresh none = (.insufficientStock nm, st) := by
  simp [placeOrder, hv, hres, hchk]

/-- Characterization of the total-mismatch path. -/
theorem placeOrder_mismatch_eq (st : Store) (u : String) (req : OrderRequest)
    (fresh : ℕ → String) (s : ℚ) (hv : validateOrder req = true)
    (hres : (resolveProducts st req).length = req.items.length)
    (hchk : checkItems (resolveProducts st req) req.items 0 = .ok s)
    (htol : EPS < |s + s * VAT_RATE - req.total| ∨
            EPS < |s * VAT_RATE - req.vatAmount|) :
    placeOrder st u req fresh none = (.totalMismatch, st) := by
  simp [placeOrder, hv, hres, hchk, htol]

/-- Every call either leaves the store unchanged or commits: in the latter
case validation, resolution and the stock check all passed and the final
store is the committed one. -/
theorem placeOrder_snd_cases (st : Store) (u : String) (req : OrderRequest)
    (fresh : ℕ → String) (failAt : Option ℕ) :
    (placeOrder st u req fresh failAt).2 = st ∨
    ∃ s rows,
      validateOrder req = true ∧
      (resolveProducts st req).length = req.items.length ∧
      checkItems (resolveProducts st req) req.items 0 = .ok s ∧
      writeLoop (resolveProducts st req) fresh (fresh (addrCount req)) req.items
        (addrCount req + 1) = some rows ∧
      (placeOrder st u req fresh failAt).2 = commitStore st u req fresh rows := by
  by_cases h0 : failAt = some 0
  · left; simp [placeOrder, h0]
  by_cases hv : validateOrder req
  case neg => left; simp [placeOrder, h0, hv]
  by_cases h1 : failAt = some 1
  · left; simp [placeOrder, h0, hv, h1]
  by_cases hres : (resolveProducts st req).length = req.items.length
  case neg => left; simp [placeOrder, h0, hv, h1, hres]
  cases hchk : checkItems (resolveProducts st req) req.items 0 with
  | crash => left; simp [placeOrder, h0, hv, h1, hres, hchk]
  | insufficient nm => left; simp [placeOrder, h0, hv, h1, hres, hchk]
  | ok s =>
    by_cases htol : EPS < |s + s * VAT_RATE - req.total| ∨
        EPS < |s * VAT_RATE - req.vatAmount|
    · left; simp [placeOrder, h0, hv, h1, hres, hchk, htol]
    cases hw : writeLoop (resolveProducts st req) fresh (fresh (addrCount req))
        req.items (addrCount req + 1) with
    | none => left; simp [placeOrder, h0, hv, h1, hres, hchk, htol, hw]
    | some rows =>
      cases hf : failAt with
      | none =>
        right
        exact ⟨s, rows, hv, hres, rfl, rfl,
          by simp [placeOrder, hv, hres, hchk, htol, hw]⟩
      | some k =>
        have h3 : 3 ≤ commitCallIdx req := by unfold commitCallIdx; omega
        by_cases hk : k ≤ commitCallIdx req
        · left; simp [placeOrder, hv, hres, hchk, htol, hw, hk]
        · right
          have hk0 : ¬ (k = 0) := by omega
          have hk1 : ¬ (k = 1) := by omega
          refine ⟨s, rows, hv, hres, rfl, rfl, ?_⟩
          by_cases hk2 : k = commitCallIdx req + 1 ∨ k = commitCallIdx req + 2
          · simp [placeOrder, hv, hres, hchk, htol, hw, hk, hk2, hk0, hk1]
          · simp [placeOrder, hv, hres, hchk, htol, hw, hk, hk2, hk0, hk1]


/-- One placement, whatever its outcome or injected failure, preserves the
catalog's ids and the non-negativity of every stock. -/
theorem placeOrder_inv_step (st : Store) (u : String) (req : OrderRequest)
    (fresh : ℕ → String) (failAt : Option ℕ)
    (hN : (st.products.map Product.id).Nodup)
    (h0 : ∀ p ∈ st.products, 0 ≤ p.stock) :
    (placeOrder st u req fresh failAt).2.products.map Product.id =
      st.products.map Product.id ∧
    ∀ p ∈ (placeOrder st u req fresh failAt).2.products, 0 ≤ p.stock := by
  rcases placeOrder_snd_cases st u req fresh failAt with h | ⟨s, rows, _, hres, hchk, _, h⟩
  · rw [h]; exact ⟨rfl, h0⟩
  · rw [h]
    constructor
    · simp only [commitStore]
      exact applyDecrements_ids req.items st.products
    · simp only [commitStore]
      exact commit_stock_nonneg st req s hN h0 hres hchk

/-- Sequences of placements preserve non-negative stock. -/
theorem runPlacements_stock_nonneg (calls : List PlacementCall) :
    ∀ st : Store, (st.products.map Product.id).Nodup →
      (∀ p ∈ st.products, 0 ≤ p.stock) →
      ∀ p ∈ (runPlacements st calls).products, 0 ≤ p.stock := by
  induction calls with
  | nil => intro st _ h0; exact h0
  | cons c rest ih =>
    intro st hN h0
    rcases placeOrder_inv_step st c.userId c.req c.fresh c.failAt hN h0 with ⟨hids, hstock⟩
    simp only [runPlacements]
    exact ih _ (hids ▸ hN) hstock

/-- The subtotal computed by a passing stock check equals the specification's
authoritative subtotal over the catalog's current prices. -/
theorem checkItems_ok_eq_authSubtotal (st : Store) (req : OrderRequest) (s : ℚ)
    (hchk : checkItems (resolveProducts st req) req.items 0 = .ok s) :
    s = authSubtotal st.products req.items := by
  have h := checkItems_ok_subtotal (resolveProducts st req) req.items 0 s hchk
  rw [h, zero_add, authSubtotal]
  congr 1
  apply List.map_congr_left
  intro it hit
  have : (resolveProducts st req).find? (fun p => p.id == it.productId) =
      st.products.find? (fun p => p.id == it.productId) :=
    find?_resolve_eq st req it hit
  simp [linePrice, this]


/-- Characterization of the crash path (a line missing from the snapshot
map makes the handler throw; the catch rolls back and answers 500). -/
theorem placeOrder_crash_eq (st : Store) (u : String) (req : OrderRequest)
    (fresh : ℕ → String) (hv : validateOrder req = true)
    (hres : (resolveProducts st req).length = req.items.length)
    (hchk : checkItems (resolveProducts st req) req.items 0 = .crash) :
    placeOrder st u req fresh none = (.internalError, st) := by
  simp [placeOrder, hv, hres, hchk]

/-- The catalog row of the demo store. -/
def demoProd : Product :=
  { id := pid1, name := "Widget", price := 100, stock := 10,
    description := "w", image := none, categoryId := none }

/-- The demo catalog row with stock 1. -/
def demoProdLow : Product :=
  { demoProd with stock := 1 }

/-- A one-product store whose product has stock 1. -/
def demoStoreLow : Store :=
  { products := [demoProdLow], orders := [], orderItems := [], addresses := [] }

/-- A request for two units (authoritative total 236, VAT 36). -/
def demoReqTwo : OrderRequest :=
  { items := [{ productId := pid1, quantity := 2 }],
    total := 236, vatAmount := 36,
    paymentMethod := "cash", shippingAddress := none, notes := none }

/-- A placement call whose first database call (beginTransaction) throws. -/
def demoCallFail : PlacementCall :=
  { userId := "u1", req := demoReqExact, fresh := demoFresh, failAt := some 0 }


/-! ### Concrete evaluations on the demo fixtures -/

/-- The demo product id passes the UUID check. -/
theorem isUUID_pid1 : isUUID pid1 = true := by decide

/-- The skewed demo request passes validation. -/
theorem valid_skewed : validateOrder demoReqSkewed = true := by
  simp [validateOrder, demoReqSkewed, isUUID_pid1, validPaymentMethod]
  norm_num

/-- The exact demo request passes validation. -/
theorem valid_exact : validateOrder demoReqExact = true := by
  simp [validateOrder, demoReqExact, isUUID_pid1, validPaymentMethod]

/-- The tampered demo request passes validation. -/
theorem valid_tampered : validateOrder demoReqTampered = true := by
  simp [validateOrder, demoReqTampered, isUUID_pid1, validPaymentMethod]

/-- The two-unit demo request passes validation. -/
theorem valid_two : validateOrder demoReqTwo = true := by
  simp [validateOrder, demoReqTwo, isUUID_pid1, validPaymentMethod]

/-- The duplicate-line demo request passes validation. -/
theorem valid_dup : validateOrder demoReqDup = true := by
  simp [validateOrder, demoReqDup, isUUID_pid1, validPaymentMethod]

/-- The empty-items demo request fails validation. -/
theorem invalid_empty : validateOrder demoReqInvalid = false := by
  simp [validateOrder, demoReqInvalid]

/-- Resolution of the skewed demo request finds the one product. -/
theorem res_skewed :
    (resolveProducts demoStore demoReqSkewed).length = demoReqSkewed.items.length := by
  decide

/-- Resolution of the exact demo request finds the one product. -/
theorem res_exact :
    (resolveProducts demoStore demoReqExact).length = demoReqExact.items.length := by
  decide

/-- Resolution of the tampered demo request finds the one product. -/
theorem res_tampered :
    (resolveProducts demoStore demoReqTampered).length = demoReqTampered.items.length := by
  decide

/-- Resolution of the two-unit request against the low-stock store. -/
theorem res_two :
    (resolveProducts demoStoreLow demoReqTwo).length = demoReqTwo.items.length := by
  decide

/-- The stock check of the skewed demo request passes with subtotal 100. -/
theorem chk_skewed :
    checkItems (resolveProducts demoStore demoReqSkewed) demoReqSkewed.items 0 = .ok 100 := by
  simp [checkItems, resolveProducts, demoStore, demoReqSkewed, requestIds, List.find?, pid1]

/-- The stock check of the exact demo request passes with subtotal 100. -/
theorem chk_exact :
    checkItems (resolveProducts demoStore demoReqExact) demoReqExact.items 0 = .ok 100 := by
  simp [checkItems, resolveProducts, demoStore, demoReqExact, requestIds, List.find?, pid1]

/-- The stock check of the tampered demo request passes with subtotal 100. -/
theorem chk_tampered :
    checkItems (resolveProducts demoStore demoReqTampered) demoReqTampered.items 0 = .ok 100 := by
  simp [checkItems, resolveProducts, demoStore, demoReqTampered, requestIds, List.find?, pid1]


/-! ### Claim theorems -/

/-- C3: for every product and every sequence of order placements (with any
injected persistence failures), starting from a catalog with distinct ids
and non-negative stocks, no product's stockQuantity ever becomes negative:
a placement whose decrement would drive a stock below zero aborts at the
snapshot stock check with InsufficientStock instead of committing. -/
theorem C3_stock_never_negative (st : Store) (calls : List PlacementCall)
    (hN : (st.products.map Product.id).Nodup)
    (h0 : ∀ p ∈ st.products, 0 ≤ p.stock) :
    ∀ p ∈ (runPlacements st calls).products, 0 ≤ p.stock :=
  runPlacements_stock_nonneg calls st hN h0

/-- C4: for a call that passes validation, whose products all resolve, and
whose stock check passes, the handler rejects with TotalMismatch if and only
if the claimed total or the claimed VAT differs by more than the 0.01
tolerance from the authoritative figure, where the authoritative subtotal
is computed from the catalog's current unit prices, the authoritative VAT
is subtotal times 0.18, and the authoritative total is their sum. -/
theorem C4_totalMismatch_iff (st : Store) (u : String) (req : OrderRequest)
    (fresh : ℕ → String) (s : ℚ)
    (hv : validateOrder req = true)
    (hres : (resolveProducts st req).length = req.items.length)
    (hchk : checkItems (resolveProducts st req) req.items 0 = .ok s) :
    (placeOrder st u req fresh none).1 = .totalMismatch ↔
      (EPS < |authTotal st.products req.items - req.total| ∨
       EPS < |authVat st.products req.items - req.vatAmount|) := by
  have hs := checkItems_ok_eq_authSubtotal st req s hchk
  have hTot : authTotal st.products req.items = s + s * VAT_RATE := by
    rw [authTotal, authVat, ← hs]
  have hVat : authVat st.products req.items = s * VAT_RATE := by
    rw [authVat, ← hs]
  rw [hTot, hVat]
  constructor
  · intro h
    by_contra hno
    rcases writeLoop_isSome (resolveProducts st req) fresh (fresh (addrCount req))
        req.items (addrCount req + 1)
        (fun it hit => by
          rcases checkItems_ok_bound (resolveProducts st req) req.items 0 s hchk it hit with
            ⟨p, hp, _⟩
          simp [hp]) with ⟨rows, hw⟩
    rw [placeOrder_success_eq st u req fresh s rows hv hres hchk hno hw] at h
    simp at h
  · intro h
    rw [placeOrder_mismatch_eq st u req fresh s hv hres hchk h]

/-- C5: a validated request whose products all resolve but where some line's
quantity exceeds the stock snapshot read in the batch lookup is rejected
with InsufficientStock, the message names an offending product, and the
store — hence that product's stock — is unchanged by the call. -/
theorem C5_insufficientStock (st : Store) (u : String) (req : OrderRequest)
    (fresh : ℕ → String)
    (hN : (st.products.map Product.id).Nodup)
    (hv : validateOrder req = true)
    (hres : (resolveProducts st req).length = req.items.length)
    (hoff : ∃ it ∈ req.items, ∃ p,
      (resolveProducts st req).find? (fun x => x.id == it.productId) = some p ∧
      p.stock < it.quantity) :
    ∃ it ∈ req.items, ∃ p,
      (resolveProducts st req).find? (fun x => x.id == it.productId) = some p ∧
      p.stock < it.quantity ∧
      placeOrder st u req fresh none = (.insufficientStock p.name, st) ∧
      errorMessage (placeOrder st u req fresh none).1 =
        some ("Insufficient stock for " ++ p.name) := by
  rcases checkItems_insufficient_of_offender (resolveProducts st req) req.items 0
      (resolve_find_isSome st req hN hres) hoff with ⟨it, hit, p, hp, hlt, heq⟩
  have hpl := placeOrder_insufficient_eq st u req fresh p.name hv hres heq
  exact ⟨it, hit, p, hp, hlt, hpl, by rw [hpl]; rfl⟩

/-- C6 (amended): for a validated call with no injected failure, the handler
rejects with ProductNotFound exactly when the number of resolved catalog
rows differs from the number of request entries — `items.length`, counting
duplicate ids once per entry — rather than from the number of distinct
requested ids. -/
theorem C6_productNotFound_iff (st : Store) (u : String) (req : OrderRequest)
    (fresh : ℕ → String) (hv : validateOrder req = true) :
    (placeOrder st u req fresh none).1 = .productNotFound ↔
      (resolveProducts st req).length ≠ req.items.length := by
  constructor
  · intro h
    by_contra hcon
    cases hchk : checkItems (resolveProducts st req) req.items 0 with
    | crash => rw [placeOrder_crash_eq st u req fresh hv hcon hchk] at h; simp at h
    | insufficient nm =>
      rw [placeOrder_insufficient_eq st u req fresh nm hv hcon hchk] at h; simp at h
    | ok s =>
      by_cases htol : EPS < |s + s * VAT_RATE - req.total| ∨
          EPS < |s * VAT_RATE - req.vatAmount|
      · rw [placeOrder_mismatch_eq st u req fresh s hv hcon hchk htol] at h; simp at h
      · rcases writeLoop_isSome (resolveProducts st req) fresh (fresh (addrCount req))
            req.items (addrCount req + 1)
            (fun it hit => by
              rcases checkItems_ok_bound (resolveProducts st req) req.items 0 s hchk it hit with
                ⟨p, hp, _⟩
              simp [hp]) with ⟨rows, hw⟩
        rw [placeOrder_success_eq st u req fresh s rows hv hcon hchk htol hw] at h
        simp at h
  · intro hne
    rw [placeOrder_notFound_eq st u req fresh hv hne]

/-- C7 (amended): a validated request that names the same product id in more
than one line entry is rejected with ProductNotFound — the entry-count
comparison fires on duplicates — so no order and no order lines are
created; duplicate entries are neither merged nor accepted. -/
theorem C7_duplicates_rejected (st : Store) (u : String) (req : OrderRequest)
    (fresh : ℕ → String)
    (hN : (st.products.map Product.id).Nodup)
    (hv : validateOrder req = true)
    (hdup : ¬ (requestIds req).Nodup) :
    placeOrder st u req fresh none = (.productNotFound, st) := by
  apply placeOrder_notFound_eq st u req fresh hv
  intro hres
  exact hdup (resolve_full st req hN hres).1

/-- C8: updating a product via `PUT /api/products/:id` writes only the
`products` table: the `order_items` rows — and with them the unit price
recorded on every existing order line — as well as the `orders` and
`addresses` tables are unchanged, for every store, product id and patch. -/
theorem C8_update_preserves_order_lines (st : Store) (productId : String)
    (patch : ProductPatch) :
    (updateProduct st productId patch).2.orderItems = st.orderItems ∧
    (updateProduct st productId patch).2.orders = st.orders ∧
    (updateProduct st productId patch).2.addresses = st.addresses := by
  unfold updateProduct
  repeat' split
  all_goals exact ⟨rfl, rfl, rfl⟩

/-- C9: a request that fails validation is rejected with the same kind
(ValidationFailed) by two successive calls against the same initial store,
and neither call changes the store. -/
theorem C9_invalid_idempotent (st : Store) (u : String) (req : OrderRequest)
    (fresh : ℕ → String) (hv : validateOrder req = false) :
    placeOrder st u req fresh none = (.validationFailed, st) ∧
    placeOrder (placeOrder st u req fresh none).2 u req fresh none =
      (.validationFailed, st) := by
  have h := placeOrder_invalid_eq st u req fresh hv
  exact ⟨h, by rw [h]; exact h⟩

/-- C10: `GET /api/orders/:id` returns an order only when the caller owns it
or is an admin; for a non-owning, non-admin caller the route answers the
same 404 not-found as when the order does not exist at all. -/
theorem C10_order_access (st : Store) (u : String) (adm : Bool) (oid : String) :
    (∀ o its, getOrderRoute st u adm oid = .found o its →
      o ∈ st.orders ∧ o.id = oid ∧ (o.userId = u ∨ adm = true)) ∧
    ((∀ o ∈ st.orders, o.id = oid → o.userId ≠ u) → adm = false →
      getOrderRoute st u adm oid = .notFound ∧
      getOrderRoute (eraseOrder st oid) u adm oid = .notFound) := by
  constructor
  · intro o its h
    unfold getOrderRoute at h
    cases hf : st.orders.find? (fun o => o.id == oid && (o.userId == u || adm)) with
    | none => rw [hf] at h; cases h
    | some o' =>
      rw [hf] at h
      cases h
      have hmem := List.mem_of_find?_eq_some hf
      have hpred := List.find?_some hf
      simp only [Bool.and_eq_true, Bool.or_eq_true, beq_iff_eq] at hpred
      exact ⟨hmem, hpred.1, hpred.2⟩
  · intro hno hadm
    subst hadm
    have hnone : st.orders.find? (fun o => o.id == oid && (o.userId == u || false)) = none := by
      rw [List.find?_eq_none]
      intro o ho
      simp only [Bool.or_false, Bool.and_eq_true, beq_iff_eq, not_and]
      intro hid
      simpa using hno o ho hid
    have hnone' : (eraseOrder st oid).orders.find?
        (fun o => o.id == oid && (o.userId == u || false)) = none := by
      rw [List.find?_eq_none]
      intro o ho
      have hne : ¬ o.id = oid := by
        have := (List.mem_filter.mp ho).2
        simpa using this
      simp [hne]
    constructor
    · simp only [getOrderRoute, hnone]
    · simp only [getOrderRoute, hnone']


/-- C1 (amended): for a call that passes validation, resolution, the stock
check and the total comparison, the persisted order header carries the
client-claimed `total` and `vatAmount` — not the recomputed figures — with
status `"pending"`; the tolerance check only guarantees that the claimed
figures are within 0.01 of the authoritative ones. -/
theorem C1_header_stores_claimed_figures (st : Store) (u : String)
    (req : OrderRequest) (fresh : ℕ → String) (s : ℚ)
    (hv : validateOrder req = true)
    (hres : (resolveProducts st req).length = req.items.length)
    (hchk : checkItems (resolveProducts st req) req.items 0 = .ok s)
    (htol : ¬ (EPS < |s + s * VAT_RATE - req.total| ∨
               EPS < |s * VAT_RATE - req.vatAmount|)) :
    ∃ rows,
      placeOrder st u req fresh none =
        (.created (fresh (addrCount req)), commitStore st u req fresh rows) ∧
      (placeOrder st u req fresh none).2.orders =
        st.orders ++ [mkOrderRow u req fresh] ∧
      (mkOrderRow u req fresh).total = req.total ∧
      (mkOrderRow u req fresh).vatAmount = req.vatAmount ∧
      (mkOrderRow u req fresh).status = "pending" ∧
      |req.total - authTotal st.products req.items| ≤ EPS ∧
      |req.vatAmount - authVat st.products req.items| ≤ EPS := by
  rcases writeLoop_isSome (resolveProducts st req) fresh (fresh (addrCount req))
      req.items (addrCount req + 1)
      (fun it hit => by
        rcases checkItems_ok_bound (resolveProducts st req) req.items 0 s hchk it hit with
          ⟨p, hp, _⟩
        simp [hp]) with ⟨rows, hw⟩
  have hpl := placeOrder_success_eq st u req fresh s rows hv hres hchk htol hw
  push_neg at htol
  have hs := checkItems_ok_eq_authSubtotal st req s hchk
  have hTot : authTotal st.products req.items = s + s * VAT_RATE := by
    rw [authTotal, authVat, ← hs]
  have hVat : authVat st.products req.items = s * VAT_RATE := by
    rw [authVat, ← hs]
  refine ⟨rows, hpl, ?_, rfl, rfl, rfl, ?_, ?_⟩
  · rw [hpl]; rfl
  · rw [hTot, abs_sub_comm]
    exact htol.1
  · rw [hVat, abs_sub_comm]
    exact htol.2

/-- C2 (amended): an order-placement call that does not return 201 and whose
injected persistence failure, if any, strikes at or before the commit —
which covers every validation failure, product-not-found, insufficient
stock, total mismatch, and every in-transaction persistence error — leaves
the store exactly as it was: no order row, no order line, no address, no
stock change.  (A persistence failure in the post-commit read-back is the
one exception; see the counterexample.) -/
theorem C2_precommit_rejections_pure (st : Store) (u : String)
    (req : OrderRequest) (fresh : ℕ → String) (failAt : Option ℕ)
    (hpre : ∀ k, failAt = some k → k ≤ commitCallIdx req)
    (hrej : ∀ oid, (placeOrder st u req fresh failAt).1 ≠ .created oid) :
    (placeOrder st u req fresh failAt).2 = st := by
  by_cases h0 : failAt = some 0
  · simp [placeOrder, h0]
  by_cases hv : validateOrder req
  case neg => simp [placeOrder, h0, hv]
  by_cases h1 : failAt = some 1
  · simp [placeOrder, h0, hv, h1]
  by_cases hres : (resolveProducts st req).length = req.items.length
  case neg => simp [placeOrder, h0, hv, h1, hres]
  cases hchk : checkItems (resolveProducts st req) req.items 0 with
  | crash => simp [placeOrder, h0, hv, h1, hres, hchk]
  | insufficient nm => simp [placeOrder, h0, hv, h1, hres, hchk]
  | ok s =>
    by_cases htol : EPS < |s + s * VAT_RATE - req.total| ∨
        EPS < |s * VAT_RATE - req.vatAmount|
    · simp [placeOrder, h0, hv, h1, hres, hchk, htol]
    cases hw : writeLoop (resolveProducts st req) fresh (fresh (addrCount req))
        req.items (addrCount req + 1) with
    | none => simp [placeOrder, h0, hv, h1, hres, hchk, htol, hw]
    | some rows =>
      cases hf : failAt with
      | none =>
        exfalso
        apply hrej (fresh (addrCount req))
        simp [placeOrder, hf, hv, hres, hchk, htol, hw]
      | some k =>
        have hk := hpre k hf
        simp [placeOrder, hf, hv, hres, hchk, htol, hw, hk, h0, h1]


/-! ### Tolerance and write-loop evaluations shared by concrete runs -/

/-- The skewed demo request is inside the 0.01 tolerance. -/
theorem tol_skewed : ¬ (EPS < |(100:ℚ) + 100 * VAT_RATE - demoReqSkewed.total| ∨
    EPS < |(100:ℚ) * VAT_RATE - demoReqSkewed.vatAmount|) := by
  have habs1 : ((100:ℚ) + 100 * VAT_RATE - demoReqSkewed.total) = -(1/200) := by
    norm_num [VAT_RATE, demoReqSkewed]
  have habs2 : ((100:ℚ) * VAT_RATE - demoReqSkewed.vatAmount) = -(1/200) := by
    norm_num [VAT_RATE, demoReqSkewed]
  rw [habs1, habs2, abs_neg, abs_of_nonneg (by norm_num : (0:ℚ) ≤ 1/200)]
  norm_num [EPS]

/-- The exact demo request matches the authoritative figures exactly. -/
theorem tol_exact : ¬ (EPS < |(100:ℚ) + 100 * VAT_RATE - demoReqExact.total| ∨
    EPS < |(100:ℚ) * VAT_RATE - demoReqExact.vatAmount|) := by
  have habs1 : ((100:ℚ) + 100 * VAT_RATE - demoReqExact.total) = 0 := by
    norm_num [VAT_RATE, demoReqExact]
  have habs2 : ((100:ℚ) * VAT_RATE - demoReqExact.vatAmount) = 0 := by
    norm_num [VAT_RATE, demoReqExact]
  rw [habs1, habs2, abs_zero]
  norm_num [EPS]

/-- The write loop of the skewed demo request inserts one snapshot row. -/
theorem wl_skewed : writeLoop (resolveProducts demoStore demoReqSkewed) demoFresh
    (demoFresh (addrCount demoReqSkewed)) demoReqSkewed.items
    (addrCount demoReqSkewed + 1) =
    some [{ id := demoFresh 1, orderId := demoFresh 0, productId := pid1,
            quantity := 1, price := 100 }] := by
  simp [writeLoop, resolveProducts, demoStore, demoReqSkewed, requestIds,
    List.find?, pid1, addrCount]

/-- The write loop of the exact demo request inserts one snapshot row. -/
theorem wl_exact : writeLoop (resolveProducts demoStore demoReqExact) demoFresh
    (demoFresh (addrCount demoReqExact)) demoReqExact.items
    (addrCount demoReqExact + 1) =
    some [{ id := demoFresh 1, orderId := demoFresh 0, productId := pid1,
            quantity := 1, price := 100 }] := by
  simp [writeLoop, resolveProducts, demoStore, demoReqExact, requestIds,
    List.find?, pid1, addrCount]

/-! ### Counterexamples and witnesses -/

/-- C1 counterexample: a client claiming total 118.005 and VAT 18.005 for a
one-line cart whose authoritative total is 118 passes every check; the
persisted header's total is the claimed 118.005, not the authoritative 118,
refuting the claim that the authoritative figures are persisted. -/
theorem C1_counterexample :
    (placeOrder demoStore "u1" demoReqSkewed demoFresh none).1 =
      .created (demoFresh 0) ∧
    (placeOrder demoStore "u1" demoReqSkewed demoFresh none).2.orders.map
      (fun o => o.total) = [118 + 1/200] ∧
    authTotal demoStore.products demoReqSkewed.items = 118 ∧
    ((118 : ℚ) + 1/200 ≠ 118) := by
  have hpl := placeOrder_success_eq demoStore "u1" demoReqSkewed demoFresh 100 _
    valid_skewed res_skewed chk_skewed tol_skewed wl_skewed
  refine ⟨?_, ?_, ?_, by norm_num⟩
  · rw [hpl]
    simp [addrCount, demoReqSkewed]
  · rw [hpl]
    simp [commitStore, mkOrderRow, demoStore, demoReqSkewed]
  · simp [authTotal, authVat, authSubtotal, linePrice, demoStore, demoReqSkewed,
      List.find?, pid1, VAT_RATE, requestIds]
    norm_num

/-- C1 witness: the amended claim instantiated on the skewed demo request. -/
theorem C1_witness :
    ∃ rows,
      placeOrder demoStore "u1" demoReqSkewed demoFresh none =
        (.created (demoFresh (addrCount demoReqSkewed)),
          commitStore demoStore "u1" demoReqSkewed demoFresh rows) ∧
      (placeOrder demoStore "u1" demoReqSkewed demoFresh none).2.orders =
        demoStore.orders ++ [mkOrderRow "u1" demoReqSkewed demoFresh] ∧
      (mkOrderRow "u1" demoReqSkewed demoFresh).total = demoReqSkewed.total ∧
      (mkOrderRow "u1" demoReqSkewed demoFresh).vatAmount = demoReqSkewed.vatAmount ∧
      (mkOrderRow "u1" demoReqSkewed demoFresh).status = "pending" ∧
      |demoReqSkewed.total - authTotal demoStore.products demoReqSkewed.items| ≤ EPS ∧
      |demoReqSkewed.vatAmount - authVat demoStore.products demoReqSkewed.items| ≤ EPS :=
  C1_header_stores_claimed_figures demoStore "u1" demoReqSkewed demoFresh 100
    valid_skewed res_skewed chk_skewed tol_skewed

/-- C2 counterexample: when the first post-commit read-back throws, the
handler answers 500 (a persistence-error rejection), yet the order header
remains committed — the store is not the pre-call store. -/
theorem C2_counterexample :
    (placeOrder demoStore "u1" demoReqExact demoFresh
        (some (commitCallIdx demoReqExact + 1))).1 = .internalError ∧
    (placeOrder demoStore "u1" demoReqExact demoFresh
        (some (commitCallIdx demoReqExact + 1))).2.orders.length = 1 ∧
    demoStore.orders.length = 0 := by
  have hci : commitCallIdx demoReqExact = 5 := by decide
  refine ⟨?_, ?_, rfl⟩
  · simp [placeOrder, valid_exact, res_exact, chk_exact, tol_exact, wl_exact, hci]
  · simp [placeOrder, valid_exact, res_exact, chk_exact, tol_exact, wl_exact, hci,
      commitStore, mkOrderRow, show demoStore.orders = [] from rfl]

/-- C2 witness: the amended claim instantiated on a beginTransaction
failure, which is caught and rolled back leaving the store unchanged. -/
theorem C2_witness :
    (placeOrder demoStore "u1" demoReqExact demoFresh (some 0)).2 = demoStore := by
  apply C2_precommit_rejections_pure
  · intro k hk
    injection hk with h
    rw [← h]
    exact Nat.zero_le _
  · intro oid hc
    rw [show (placeOrder demoStore "u1" demoReqExact demoFresh (some 0)).1 =
        .internalError by simp [placeOrder]] at hc
    cases hc

/-- C3 witness: the stock invariant instantiated on the demo store and one
placement call. -/
theorem C3_witness :
    (0:ℤ) ≤ ((runPlacements demoStore [demoCallFail]).products.headI).stock := by
  apply C3_stock_never_negative demoStore [demoCallFail] (by decide) (by decide)
  simp [runPlacements, demoCallFail, placeOrder, demoStore, List.headI]

/-- C4 witness: a tampered claimed total of 999999 against an authoritative
total of 118 is rejected with TotalMismatch. -/
theorem C4_witness :
    (placeOrder demoStore "u1" demoReqTampered demoFresh none).1 = .totalMismatch := by
  apply (C4_totalMismatch_iff demoStore "u1" demoReqTampered demoFresh 100
    valid_tampered res_tampered chk_tampered).mpr
  left
  have hA : authTotal demoStore.products demoReqTampered.items = 118 := by
    simp [authTotal, authVat, authSubtotal, linePrice, demoStore, demoReqTampered,
      List.find?, pid1, VAT_RATE, requestIds]
    norm_num
  rw [hA]
  have habs : |(118:ℚ) - demoReqTampered.total| = 999881 := by
    rw [show ((118:ℚ) - demoReqTampered.total) = -(999881) by
        norm_num [demoReqTampered],
      abs_neg, abs_of_nonneg (by norm_num : (0:ℚ) ≤ 999881)]
  rw [habs]
  norm_num [EPS]

/-- C5 witness: two units requested of a product with stock 1 are rejected
with InsufficientStock naming the product, and the store is unchanged. -/
theorem C5_witness :
    ∃ it ∈ demoReqTwo.items, ∃ p,
      (resolveProducts demoStoreLow demoReqTwo).find?
        (fun x => x.id == it.productId) = some p ∧
      p.stock < it.quantity ∧
      placeOrder demoStoreLow "u1" demoReqTwo demoFresh none =
        (.insufficientStock p.name, demoStoreLow) ∧
      errorMessage (placeOrder demoStoreLow "u1" demoReqTwo demoFresh none).1 =
        some ("Insufficient stock for " ++ p.name) := by
  apply C5_insufficientStock demoStoreLow "u1" demoReqTwo demoFresh (by decide)
    valid_two res_two
  refine ⟨{ productId := pid1, quantity := 2 }, by decide, demoProdLow, ?_, by decide⟩
  simp [resolveProducts, demoStoreLow, demoProdLow, demoProd, demoReqTwo, requestIds,
    List.find?, pid1]

/-- C6 counterexample: a duplicate-line request for an existing product has
as many distinct resolved products as distinct requested ids, yet the
handler rejects it with ProductNotFound, refuting the claimed "if and only
if" over distinct ids. -/
theorem C6_counterexample :
    (placeOrder demoStore "u1" demoReqDup demoFresh none).1 = .productNotFound ∧
    ((resolveProducts demoStore demoReqDup).map Product.id).dedup.length =
      (requestIds demoReqDup).dedup.length := by
  constructor
  · rw [placeOrder_notFound_eq demoStore "u1" demoReqDup demoFresh valid_dup (by decide)]
  · decide

/-- C6 witness: the amended claim instantiated on the duplicate-line demo
request (one resolved row, two request entries). -/
theorem C6_witness :
    (placeOrder demoStore "u1" demoReqDup demoFresh none).1 = .productNotFound :=
  (C6_productNotFound_iff demoStore "u1" demoReqDup demoFresh valid_dup).mpr (by decide)

/-- C7 counterexample: a validated request naming an existing product twice,
each entry individually covered by stock, is rejected with ProductNotFound
instead of succeeding with one line per entry. -/
theorem C7_counterexample :
    validateOrder demoReqDup = true ∧
    (∀ it ∈ demoReqDup.items, ∃ p ∈ demoStore.products,
      p.id = it.productId ∧ it.quantity ≤ p.stock) ∧
    placeOrder demoStore "u1" demoReqDup demoFresh none =
      (.productNotFound, demoStore) := by
  refine ⟨valid_dup, by decide, ?_⟩
  exact placeOrder_notFound_eq demoStore "u1" demoReqDup demoFresh valid_dup (by decide)

/-- C7 witness: the amended claim instantiated on the duplicate-line demo
request. -/
theorem C7_witness :
    placeOrder demoStore "u1" demoReqDup demoFresh none =
      (.productNotFound, demoStore) :=
  C7_duplicates_rejected demoStore "u1" demoReqDup demoFresh (by decide) valid_dup
    (by decide)

/-- C9 witness: the empty-items request is rejected identically by two
successive calls and leaves the demo store unchanged. -/
theorem C9_witness :
    placeOrder demoStore "u1" demoReqInvalid demoFresh none =
      (.validationFailed, demoStore) ∧
    placeOrder (placeOrder demoStore "u1" demoReqInvalid demoFresh none).2 "u1"
      demoReqInvalid demoFresh none = (.validationFailed, demoStore) :=
  C9_invalid_idempotent demoStore "u1" demoReqInvalid demoFresh invalid_empty

/-- C10 witness: the order owned by alice is not found for bob, exactly as
if it did not exist. -/
theorem C10_witness :
    getOrderRoute demoOrderStore "bob" false "o1" = .notFound ∧
    getOrderRoute (eraseOrder demoOrderStore "o1") "bob" false "o1" = .notFound :=
  (C10_order_access demoOrderStore "bob" false "o1").2 (by decide) rfl

end EStore
